import Mathlib

/-!
Verification of the InfraDon2 games/comments/likes application: a shallow
embedding of its local document stores, query selectors, replication step
and the Vue component operations (`addGame`, `addComment`, `toggleLike`,
`deleteGame`, `fetchData`, `searchGames`, `watchDistantChanges`), together
with theorems settling the specification's claims about them.

The document-store primitives themselves (`put`, `get`, `remove`, selector
queries, replication) live in the PouchDB library, not in this repository's
files; those definitions are modelled from the specification's §3, §4.1,
§4.3, §4.5 and §4.6 and are marked as such in their doc comments.
-/

namespace InfraDon

/-- Revision marker of a stored document: a generation number and an opaque
hash token, as in the data model (§3). -/
structure Rev where
  gen : Nat
  tok : String
deriving DecidableEq, Repr

/-- Modelled from the spec: the opaque content-derived token of a freshly
written revision (§3). The claims below only ever compare tokens for
equality, so the token is modelled as a deterministic function of the new
generation number. -/
def newTok (g : Nat) : String := "h" ++ toString g

/-- A stored document: id, current revision, tombstone flag and body. -/
structure Entry (β : Type) where
  id : String
  rev : Rev
  deleted : Bool
  body : β
deriving DecidableEq, Repr

/-- A local document store: the list of its entries, one per id. -/
abbrev DStore (β : Type) : Type := List (Entry β)

/-- A document as handed to a write: id, optional expected parent revision
and body. -/
structure WDoc (β : Type) where
  id : String
  rev? : Option Rev
  body : β
deriving DecidableEq, Repr

/-- The store-level error taxonomy (§7). -/
inductive DbErr where
  | conflict
  | notFound
  | invalidDocument
deriving DecidableEq, Repr

/-- Modelled from the spec: `put` of the Document Store (§4.1; PouchDB's
`put` is not part of the repository's files). It creates the document when
the id is unseen and no parent revision is supplied, updates it when the
supplied parent revision equals the current one, and otherwise fails
`Conflict`, returning the store exactly as it was. -/
def put {β : Type} (s : DStore β) (d : WDoc β) : DStore β × Except DbErr Rev :=
  match s.find? (fun e => e.id == d.id) with
  | none =>
    match d.rev? with
    | none =>
      let r : Rev := ⟨1, newTok 1⟩
      (s ++ [⟨d.id, r, false, d.body⟩], .ok r)
    | some _ => (s, .error .conflict)
  | some e =>
    if e.deleted then (s, .error .conflict)
    else
      match d.rev? with
      | some r =>
        if r = e.rev then
          let r' : Rev := ⟨e.rev.gen + 1, newTok (e.rev.gen + 1)⟩
          (s.map (fun x => if x.id == d.id then ⟨x.id, r', false, d.body⟩ else x), .ok r')
        else (s, .error .conflict)
      | none => (s, .error .conflict)

/-- Modelled from the spec: `get` of the Document Store (§4.1): fails
`NotFound` when the id is absent or tombstoned. -/
def get {β : Type} (s : DStore β) (i : String) : Except DbErr (Entry β) :=
  match s.find? (fun e => e.id == i) with
  | none => .error .notFound
  | some e => if e.deleted then .error .notFound else .ok e

/-- Tombstoning an entry: a fresh revision carrying the deleted flag (§3). -/
def tomb {β : Type} (e : Entry β) : Entry β :=
  ⟨e.id, ⟨e.rev.gen + 1, newTok (e.rev.gen + 1)⟩, true, e.body⟩

/-- Modelled from the spec: `remove` of the Document Store (§4.1): writes a
tombstone revision, with the same conflict semantics as `put`. -/
def remove {β : Type} (s : DStore β) (i : String) (r : Rev) :
    DStore β × Except DbErr Rev :=
  match s.find? (fun e => e.id == i) with
  | none => (s, .error .notFound)
  | some e =>
    if e.deleted then (s, .error .notFound)
    else if r = e.rev then
      (s.map (fun x => if x.id == i then tomb x else x), .ok (tomb e).rev)
    else (s, .error .conflict)

/-- Modelled from the spec: a selector query of the Query Engine (§4.3, §6):
the live entries matching the selector, in store order; tombstoned documents
are excluded from reads. -/
def findSel {β : Type} (s : DStore β) (sel : Entry β → Bool) : List (Entry β) :=
  s.filter (fun e => !e.deleted && sel e)

/-- Helper: `put` on an unseen id with no parent revision inserts. -/
theorem put_insert {β : Type} (s : DStore β) (d : WDoc β)
    (hfind : s.find? (fun e => e.id == d.id) = none) (hrev : d.rev? = none) :
    put s d = (s ++ [⟨d.id, ⟨1, newTok 1⟩, false, d.body⟩], .ok ⟨1, newTok 1⟩) := by
  unfold put; rw [hfind, hrev]

/-- Helper: `put` on an unseen id with a supplied parent revision fails. -/
theorem put_absent_rev {β : Type} (s : DStore β) (d : WDoc β) (r0 : Rev)
    (hfind : s.find? (fun e => e.id == d.id) = none) (hrev : d.rev? = some r0) :
    put s d = (s, .error .conflict) := by
  unfold put; rw [hfind, hrev]

/-- Helper: `put` on a tombstoned id fails. -/
theorem put_deleted {β : Type} (s : DStore β) (d : WDoc β) (e : Entry β)
    (hfind : s.find? (fun x => x.id == d.id) = some e) (hdel : e.deleted = true) :
    put s d = (s, .error .conflict) := by
  unfold put; rw [hfind]; simp [hdel]

/-- Helper: `put` of a document with no parent revision on a live id fails. -/
theorem put_norev_existing {β : Type} (s : DStore β) (d : WDoc β) (e : Entry β)
    (hfind : s.find? (fun x => x.id == d.id) = some e) (hdel : e.deleted = false)
    (hrev : d.rev? = none) :
    put s d = (s, .error .conflict) := by
  unfold put; rw [hfind, hrev]; simp [hdel]

/-- Helper: `put` of a document with a stale parent revision on a live id
fails and returns the store unchanged. -/
theorem put_stale {β : Type} (s : DStore β) (d : WDoc β) (e : Entry β) (r : Rev)
    (hfind : s.find? (fun x => x.id == d.id) = some e) (hdel : e.deleted = false)
    (hrev : d.rev? = some r) (hne : r ≠ e.rev) :
    put s d = (s, .error .conflict) := by
  unfold put; rw [hfind, hrev]; simp [hdel, hne]

/-- Helper: `put` of a document naming the current revision as parent
updates the entry in place and bumps the generation. -/
theorem put_update {β : Type} (s : DStore β) (d : WDoc β) (e : Entry β)
    (hfind : s.find? (fun x => x.id == d.id) = some e) (hdel : e.deleted = false)
    (hrev : d.rev? = some e.rev) :
    put s d = (s.map (fun x => if x.id == d.id then
        ⟨x.id, ⟨e.rev.gen + 1, newTok (e.rev.gen + 1)⟩, false, d.body⟩ else x),
      .ok ⟨e.rev.gen + 1, newTok (e.rev.gen + 1)⟩) := by
  unfold put; rw [hfind, hrev]; simp [hdel]

/-- C1: a `put` whose supplied parent revision differs from the store's
current revision for that id always fails with `Conflict`, and the failed
call returns the store unchanged: the document's current revision and body
are never overwritten. -/
theorem C1_stale_put_conflicts {β : Type} (s : DStore β) (d : WDoc β)
    (e : Entry β) (r : Rev)
    (hfind : s.find? (fun x => x.id == d.id) = some e)
    (hlive : e.deleted = false)
    (hrev : d.rev? = some r) (hne : r ≠ e.rev) :
    put s d = (s, .error .conflict) :=
  put_stale s d e r hfind hlive hrev hne

/-- A revision as the Conflict Resolver compares it (§4.5): the generation
number first, then the hash token lexicographically — the lexicographic
order on the pair. -/
abbrev RRev : Type := Lex (Nat × String)

/-- Modelled from the spec: the revisions of each id that one replica knows.
Replication transfers revisions and never discards them: the losing revision
of a conflict is retained (§4.5, §4.6). -/
abbrev RepStore : Type := String → Finset RRev

/-- Modelled from the spec: the deterministic conflict winner — the maximal
known revision under the generation-then-token order (§4.5). -/
def currentRev (s : RepStore) (i : String) : WithBot RRev := (s i).max

/-- Modelled from the spec: one replication direction (`replicate.to` /
`replicate.from` of the source; the engine itself is PouchDB's, not part of
the repository's files): after the run the destination knows every revision
of the source as well as its own (§4.6). -/
def replicateTo (src dst : RepStore) : RepStore := fun i => dst i ∪ src i

/-- The manual synchronization order of the source: push the local store `a`
to the remote `b`, then pull the remote back into `a`. -/
def syncPair (a b : RepStore) : RepStore × RepStore :=
  (replicateTo (replicateTo a b) a, replicateTo a b)

/-- C2: replicating store A to store B and then B back to A leaves both
stores with identical current revisions for every document id, and running
the same bidirectional replication again changes neither store. -/
theorem C2_sync_converges (a b : RepStore) :
    (∀ i, currentRev (syncPair a b).1 i = currentRev (syncPair a b).2 i) ∧
    syncPair (syncPair a b).1 (syncPair a b).2 = syncPair a b := by
  have hab : ∀ i, (syncPair a b).1 i = (syncPair a b).2 i := by
    intro i
    show a i ∪ (b i ∪ a i) = b i ∪ a i
    ext r
    simp only [Finset.mem_union]
    tauto
  have huv : (syncPair a b).1 = (syncPair a b).2 := funext hab
  refine ⟨fun i => by unfold currentRev; rw [hab i], ?_⟩
  rw [huv]
  have hself : ∀ v : RepStore, replicateTo v v = v := by
    intro v
    funext i
    exact Finset.union_self (v i)
  show syncPair (syncPair a b).2 (syncPair a b).2 = syncPair a b
  unfold syncPair
  rw [show replicateTo (replicateTo a b) (replicateTo a b) = replicateTo a b from
    hself (replicateTo a b)]
  rw [hself (replicateTo a b)]
  exact Prod.ext (huv.symm) rfl

/-- State touched by the manual synchronization: the two local stores and
their two remote counterparts. -/
structure SyncSt where
  localGames : RepStore
  localComments : RepStore
  remoteGames : RepStore
  remoteComments : RepStore

/-- `watchDistantChanges` of the source: when the offline flag is set the
invocation returns at once; otherwise each local store is pushed to and then
pulled from its remote counterpart. -/
def watchDistantChanges (isOffline : Bool) (st : SyncSt) : SyncSt :=
  if isOffline then st
  else
    let g := syncPair st.localGames st.remoteGames
    let c := syncPair st.localComments st.remoteComments
    ⟨g.1, c.1, g.2, c.2⟩

/-- C7: with the offline flag set, the manual synchronization performs no
replication at all — it returns the whole state, and in particular the local
games store and the local comments store, unchanged. -/
theorem C7_offline_short_circuits (st : SyncSt) :
    watchDistantChanges true st = st ∧
    (watchDistantChanges true st).localGames = st.localGames ∧
    (watchDistantChanges true st).localComments = st.localComments :=
  ⟨rfl, rfl, rfl⟩

/-- One element of the `biblio.games` array of a game document. -/
structure GameRec where
  title : String
  editor : String
  country : Option String
  release : Nat
deriving DecidableEq, Repr

/-- Body of a document in the games database: the `biblio.games` array when
the document has one; other documents, design documents included, do not. -/
structure GBody where
  biblioGames? : Option (List GameRec)
deriving DecidableEq, Repr

/-- Body of a document in the comments database: a comment or a like, each
carrying its `gameId` foreign key. -/
inductive CBody where
  | comment (gameId text : String) (author : Option String) (createdAt : Nat)
  | like (gameId : String) (createdAt : Nat)
deriving DecidableEq, Repr

/-- Document id built by `addGame`: `game_` followed by the millisecond
timestamp `Date.now()`, modelled as a natural number. -/
def mkGameId (now : Nat) : String := "game_" ++ toString now

/-- Document id built by `addComment`: `comment_` followed by `Date.now()`. -/
def mkCommentId (now : Nat) : String := "comment_" ++ toString now

/-- Document id built by `toggleLike`: `like_` followed by `Date.now()`. -/
def mkLikeId (now : Nat) : String := "like_" ++ toString now

/-- `addGame` of the source: builds the new game document with id
`game_${Date.now()}` and a single-element `biblio.games` array, and `put`s
it with no parent revision. -/
def addGame (s : DStore GBody) (now : Nat) (title editor : String)
    (country : Option String) (release : Nat) : DStore GBody × Except DbErr Rev :=
  put s ⟨mkGameId now, none, ⟨some [⟨title, editor, country, release⟩]⟩⟩

/-- The store write performed by `addComment` of the source: a comment
document with id `comment_${Date.now()}`, `put` with no parent revision. -/
def putCommentDoc (s : DStore CBody) (now : Nat) (gid text : String) :
    DStore CBody × Except DbErr Rev :=
  put s ⟨mkCommentId now, none, .comment gid text none now⟩

/-- The store write performed by `toggleLike` of the source: a like document
with id `like_${Date.now()}`, `put` with no parent revision. -/
def toggleLike (s : DStore CBody) (now : Nat) (gid : String) :
    DStore CBody × Except DbErr Rev :=
  put s ⟨mkLikeId now, none, .like gid now⟩

/-- Helper: `find?` over an id-preserving map rewrites to a map over the
result of `find?` when the predicate only inspects the id. -/
theorem find?_map_id {β : Type} (s : List (Entry β)) (i : String)
    (f : Entry β → Entry β) (hf : ∀ e, (f e).id = e.id) :
    (s.map f).find? (fun x => x.id == i) = (s.find? (fun x => x.id == i)).map f := by
  induction s with
  | nil => rfl
  | cons a t ih =>
    simp only [List.map_cons, List.find?]
    rw [hf a]
    cases h : (a.id == i) with
    | true => rfl
    | false => exact ih

/-- Helper: `find?` skips a list whose elements all fail the predicate. -/
theorem find?_append_of_none {β : Type} {s : List (Entry β)} {p : Entry β → Bool}
    (h : s.find? p = none) (t : List (Entry β)) :
    (s ++ t).find? p = t.find? p := by
  induction s with
  | nil => rfl
  | cons a s ih =>
    simp only [List.find?] at h ⊢
    cases hp : p a with
    | true => rw [hp] at h; simp at h
    | false => rw [hp] at h; exact ih h

/-- Helper: after a successful `put`, the written id is present and live. -/
theorem put_ok_live {β : Type} (s : DStore β) (d : WDoc β) (r : Rev)
    (hok : (put s d).2 = .ok r) :
    ∃ e, (put s d).1.find? (fun x => x.id == d.id) = some e ∧ e.deleted = false := by
  cases hfind : s.find? (fun e => e.id == d.id) with
  | none =>
    cases hrev : d.rev? with
    | none =>
      rw [put_insert s d hfind hrev]
      refine ⟨⟨d.id, ⟨1, newTok 1⟩, false, d.body⟩, ?_, rfl⟩
      rw [find?_append_of_none hfind]
      simp [List.find?]
    | some r0 => rw [put_absent_rev s d r0 hfind hrev] at hok; simp at hok
  | some e =>
    cases hdel : e.deleted with
    | true => rw [put_deleted s d e hfind hdel] at hok; simp at hok
    | false =>
      cases hrev : d.rev? with
      | none => rw [put_norev_existing s d e hfind hdel hrev] at hok; simp at hok
      | some r0 =>
        by_cases heq : r0 = e.rev
        · subst heq
          rw [put_update s d e hfind hdel hrev]
          have hid : (e.id == d.id) = true := by
            have h := List.find?_some hfind
            simpa using h
          refine ⟨⟨e.id, ⟨e.rev.gen + 1, newTok (e.rev.gen + 1)⟩, false, d.body⟩, ?_, rfl⟩
          rw [find?_map_id]
          · rw [hfind]
            simp [hid]
            intro h
            exact absurd (eq_of_beq hid) h
          · intro x; by_cases hx : (x.id == d.id) = true <;> simp [hx]
        · rw [put_stale s d e r0 hfind hdel hrev heq] at hok; simp at hok

/-- Helper: a `put` of a document with no parent revision whose id already
lives in the store is rejected as a conflict and the store is returned
unchanged. -/
theorem put_fresh_conflict {β : Type} (s : DStore β) (d d' : WDoc β) (r : Rev)
    (hok : (put s d).2 = .ok r) (hid : d'.id = d.id) (hrev : d'.rev? = none) :
    put (put s d).1 d' = ((put s d).1, .error .conflict) := by
  obtain ⟨e, hfind, hlive⟩ := put_ok_live s d r hok
  exact put_norev_existing (put s d).1 d' e (by rw [hid]; exact hfind) hlive hrev

/-- C8: every creation targets the id `game_`, `comment_` or `like_`
followed by the current millisecond timestamp, so a second creation of the
same kind within the same millisecond addresses the very same id and its
`put` is rejected by the store as a conflict, leaving the store unchanged
rather than creating a second document. -/
theorem C8_same_millisecond_put_rejected (gs : DStore GBody) (cs : DStore CBody)
    (now : Nat) (t e t' e' : String) (c c' : Option String) (y y' : Nat)
    (gid txt gid' txt' lgid lgid' : String) :
    (∀ r, (addGame gs now t e c y).2 = .ok r →
      addGame (addGame gs now t e c y).1 now t' e' c' y' =
        ((addGame gs now t e c y).1, .error .conflict)) ∧
    (∀ r, (putCommentDoc cs now gid txt).2 = .ok r →
      putCommentDoc (putCommentDoc cs now gid txt).1 now gid' txt' =
        ((putCommentDoc cs now gid txt).1, .error .conflict)) ∧
    (∀ r, (toggleLike cs now lgid).2 = .ok r →
      toggleLike (toggleLike cs now lgid).1 now lgid' =
        ((toggleLike cs now lgid).1, .error .conflict)) := by
  refine ⟨fun r hok => ?_, fun r hok => ?_, fun r hok => ?_⟩
  · exact put_fresh_conflict gs _ _ r hok rfl rfl
  · exact put_fresh_conflict cs _ _ r hok rfl rfl
  · exact put_fresh_conflict cs _ _ r hok rfl rfl

/-- Helper: `remove` of a live document at its current revision tombstones
the matching entry. -/
theorem remove_found {β : Type} (s : DStore β) (i : String) (e : Entry β) (r : Rev)
    (hfind : s.find? (fun x => x.id == i) = some e) (hdel : e.deleted = false)
    (hr : r = e.rev) :
    remove s i r = (s.map (fun x => if x.id == i then tomb x else x),
      .ok (tomb e).rev) := by
  unfold remove; rw [hfind]; simp [hdel, hr]

/-- Selector of `deleteGame` and the comment fetches: comment documents of
the given game. -/
def selComment (gid : String) (e : Entry CBody) : Bool :=
  match e.body with
  | .comment g _ _ _ => g == gid
  | _ => false

/-- Selector of `fetchLikesForGame` and `deleteGame`: like documents of the
given game. -/
def selLike (gid : String) (e : Entry CBody) : Bool :=
  match e.body with
  | .like g _ => g == gid
  | _ => false

/-- `fetchLikesForGame` of the source: the like count reported to the UI is
the number of like documents of the game found live in the comments store. -/
def likeCount (s : DStore CBody) (gid : String) : Nat :=
  (findSel s (selLike gid)).length

/-- C4: the like count reported to the UI equals the number of live like
documents with that gameId present in the comments store, and in the
scenario — two like documents added for a game, then one of them removed —
the count is 2 and then 1. -/
theorem C4_like_count_matches_store (s : DStore CBody) (gid : String)
    (now1 now2 : Nat) (hne : mkLikeId now1 ≠ mkLikeId now2) :
    likeCount s gid = s.countP (fun e => !e.deleted && selLike gid e) ∧
    likeCount (toggleLike (toggleLike [] now1 gid).1 now2 gid).1 gid = 2 ∧
    likeCount (remove (toggleLike (toggleLike [] now1 gid).1 now2 gid).1
        (mkLikeId now1) ⟨1, newTok 1⟩).1 gid = 1 := by
  have hbne1 : (mkLikeId now1 == mkLikeId now2) = false :=
    beq_eq_false_iff_ne.mpr hne
  have hbne2 : (mkLikeId now2 == mkLikeId now1) = false :=
    beq_eq_false_iff_ne.mpr (Ne.symm hne)
  refine ⟨by simp [likeCount, findSel, List.countP_eq_length_filter], ?_, ?_⟩
  · simp [toggleLike, put, likeCount, findSel, selLike, List.find?, hbne1]
  · simp [toggleLike, put, remove, tomb, likeCount, findSel, selLike,
      List.find?, hbne1, hbne2, hne, Ne.symm hne]

/-- Helper: `get` succeeds exactly on a live entry at the asked id. -/
theorem get_ok {β : Type} (s : DStore β) (i : String) (e : Entry β)
    (h : get s i = .ok e) :
    s.find? (fun x => x.id == i) = some e ∧ e.deleted = false := by
  unfold get at h
  split at h
  · exact absurd h (by simp)
  · next e1 heq =>
    split at h
    · exact absurd h (by simp)
    · next hdel =>
      obtain rfl : e1 = e := by injection h
      exact ⟨heq, by simpa using hdel⟩

/-- The removal loop of `deleteGame`: sequentially `remove` each listed
document at the revision it was fetched with. -/
def removeAll {β : Type} (s : DStore β) (ds : List (Entry β)) : DStore β :=
  ds.foldl (fun st d => (remove st d.id d.rev).1) s

/-- The combined effect of removing every live document matching `sel`:
matching live entries are tombstoned, everything else is untouched. -/
def tombAll {β : Type} (sel : Entry β → Bool) (s : DStore β) : DStore β :=
  s.map (fun e => if !e.deleted && sel e then tomb e else e)

/-- `deleteGame` of the source: remove the game document, then find and
remove every comment of the game, then find and remove every like of the
game; `none` when the game document cannot be fetched. -/
def deleteGame (gs : DStore GBody) (cs : DStore CBody) (gid : String) :
    Option (DStore GBody × DStore CBody) :=
  match get gs gid with
  | .error _ => none
  | .ok e =>
    let gs1 := (remove gs gid e.rev).1
    let cs1 := removeAll cs (findSel cs (selComment gid))
    let cs2 := removeAll cs1 (findSel cs1 (selLike gid))
    some (gs1, cs2)

/-- Helper: `remove` leaves an entry with a different id at the head of the
store untouched. -/
theorem remove_cons_ne {β : Type} (x : Entry β) (s : DStore β) (i : String) (r : Rev)
    (hx : (x.id == i) = false) :
    (remove (x :: s) i r).1 = x :: (remove s i r).1 := by
  unfold remove
  simp only [List.find?, hx]
  cases hfind : s.find? (fun e => e.id == i) with
  | none => rfl
  | some e =>
    have hx' : ¬x.id = i := by simpa using hx
    cases hdel : e.deleted with
    | true => simp [hdel]
    | false =>
      by_cases hr : r = e.rev
      · simp [hdel, hr, hx']
      · simp [hdel, hr]

/-- Helper: the removal loop leaves a head entry whose id none of the listed
documents carries untouched. -/
theorem removeAll_cons_ne {β : Type} (x : Entry β) (ds : List (Entry β)) :
    ∀ s : DStore β, (∀ d ∈ ds, (x.id == d.id) = false) →
      removeAll (x :: s) ds = x :: removeAll s ds := by
  induction ds with
  | nil => intro s _; rfl
  | cons d ds ih =>
    intro s hx
    unfold removeAll
    simp only [List.foldl_cons]
    rw [remove_cons_ne x s d.id d.rev (hx d (by simp))]
    exact ih _ (fun d' hd' => hx d' (by simp [hd']))

/-- Helper: removing every document found live under a selector tombstones
exactly the matching live entries, provided ids are unique in the store. -/
theorem removeAll_findSel {β : Type} (sel : Entry β → Bool) :
    ∀ s : DStore β, (s.map Entry.id).Nodup →
      removeAll s (findSel s sel) = tombAll sel s := by
  intro s
  induction s with
  | nil => intro _; rfl
  | cons a s ih =>
    intro hnd
    rw [List.map_cons, List.nodup_cons] at hnd
    obtain ⟨hain, hnd'⟩ := hnd
    have hnotin : ∀ d ∈ findSel s sel, (a.id == d.id) = false := by
      intro d hd
      have hds : d ∈ s := List.mem_of_mem_filter hd
      have hmem : d.id ∈ s.map Entry.id := List.mem_map_of_mem _ hds
      exact beq_eq_false_iff_ne.mpr (fun h => hain (by rw [h]; exact hmem))
    cases hcond : (!a.deleted && sel a) with
    | false =>
      have hfs : findSel (a :: s) sel = findSel s sel := by
        simp only [findSel, List.filter]
        rw [hcond]
      rw [hfs, removeAll_cons_ne a (findSel s sel) s hnotin, ih hnd']
      show _ = (if !a.deleted && sel a then tomb a else a) :: tombAll sel s
      rw [hcond]
      simp
    | true =>
      obtain ⟨hdel', hsel⟩ : a.deleted = false ∧ sel a = true := by simpa using hcond
      have hfs : findSel (a :: s) sel = a :: findSel s sel := by
        simp only [findSel, List.filter]
        rw [hcond]
      have hmap : s.map (fun x => if x.id == a.id then tomb x else x) = s := by
        apply List.map_congr_left ?_ |>.trans (List.map_id s)
        intro e he
        have hmem : e.id ∈ s.map Entry.id := List.mem_map_of_mem _ he
        have hne : (e.id == a.id) = false :=
          beq_eq_false_iff_ne.mpr (fun h => hain (by rw [← h]; exact hmem))
        simp [hne]
      have hrm : (remove (a :: s) a.id a.rev).1 = tomb a :: s := by
        rw [remove_found (a :: s) a.id a a.rev (by simp [List.find?]) hdel' rfl]
        simp only [List.map_cons, beq_self_eq_true, if_pos]
        rw [hmap]
      have hstep : removeAll (a :: s) (a :: findSel s sel) =
          removeAll (tomb a :: s) (findSel s sel) := by
        unfold removeAll
        simp only [List.foldl_cons]
        rw [hrm]
      rw [hfs, hstep, removeAll_cons_ne (tomb a) (findSel s sel) s hnotin, ih hnd']
      show _ = (if !a.deleted && sel a then tomb a else a) :: tombAll sel s
      rw [hcond]
      simp

/-- Helper: tombstoning matching entries does not change the stored ids. -/
theorem tombAll_ids {β : Type} (sel : Entry β → Bool) (s : DStore β) :
    (tombAll sel s).map Entry.id = s.map Entry.id := by
  unfold tombAll
  rw [List.map_map]
  apply List.map_congr_left
  intro e _
  simp only [Function.comp_apply]
  split <;> rfl

/-- C6: after `deleteGame` completes, the games store holds no live document
with the deleted id and the comments store holds no live comment document
and no live like document of that game — the delete cascades to all
dependents. -/
theorem C6_delete_cascades (gs : DStore GBody) (cs : DStore CBody) (gid : String)
    (gs' : DStore GBody) (cs' : DStore CBody)
    (hc : (cs.map Entry.id).Nodup)
    (hdel : deleteGame gs cs gid = some (gs', cs')) :
    (∀ e ∈ gs', e.id = gid → e.deleted = true) ∧
    (∀ e ∈ cs', (selComment gid e || selLike gid e) = true → e.deleted = true) := by
  unfold deleteGame at hdel
  cases hget : get gs gid with
  | error err => rw [hget] at hdel; simp at hdel
  | ok e =>
    rw [hget] at hdel
    simp only [Option.some_inj, Prod.mk.injEq] at hdel
    obtain ⟨hgs, hcs⟩ := hdel
    obtain ⟨hfind, hlive⟩ := get_ok gs gid e hget
    constructor
    · intro x hx hxid
      rw [← hgs, remove_found gs gid e e.rev hfind hlive rfl] at hx
      obtain ⟨x0, hx0, rfl⟩ := List.mem_map.mp hx
      by_cases hcond : (x0.id == gid) = true
      · simp [hcond, tomb]
      · rw [if_neg (by simp [hcond])] at hxid ⊢
        exact absurd hxid (by simpa using hcond)
    · intro x hx hsel
      rw [← hcs, removeAll_findSel (selComment gid) cs hc,
        removeAll_findSel (selLike gid) (tombAll (selComment gid) cs)
          (by rw [tombAll_ids]; exact hc)] at hx
      unfold tombAll at hx
      rw [List.map_map] at hx
      obtain ⟨e0, he0, rfl⟩ := List.mem_map.mp hx
      simp only [Function.comp_apply]
      by_cases h1 : e0.deleted = true
      · simp [h1]
      · have h1' : e0.deleted = false := by simpa using h1
        by_cases h2 : selComment gid e0 = true
        · simp [h1', h2, tomb]
        · by_cases h3 : selLike gid e0 = true
          · simp [h1', h2, h3, tomb]
          · exfalso
            simp only [Function.comp_apply, h1', h2, h3, Bool.and_false,
              Bool.false_and, Bool.and_true, Bool.not_false, Bool.true_and,
              if_neg, ite_false] at hsel
            simp [h1', h2, h3] at hsel

/-- The source's `_id.startsWith("_")` check: the first character of the id
is an underscore. -/
def startsUnderscore (s : String) : Bool :=
  match s.data with
  | [] => false
  | c :: _ => c == '_'

/-- The shape filters of every games listing in the source: the document has
a `biblio.games` field and its id does not start with an underscore. -/
def validGame (e : Entry GBody) : Bool :=
  e.body.biblioGames?.isSome && !(startsUnderscore e.id)

/-- The match-all selector `_id: {$gt: null}` of the source's fetches. -/
def selAll (e : Entry GBody) : Bool :=
  let _ := e
  true

/-- `fetchData` of the source (unpaginated variants): `find` with the
match-all selector, then the two shape filters. -/
def fetchData (s : DStore GBody) : List (Entry GBody) :=
  (findSel s selAll).filter validGame

/-- The page size `gamesPerPage` of the paginated variant. -/
def gamesPerPage : Nat := 10

/-- `fetchData` of the paginated variant: `find` with the match-all
selector, `skip` and `limit gamesPerPage`, then the shape filters; the
`hasMoreGames` flag is set when the filtered page holds exactly
`gamesPerPage` documents. -/
def fetchDataPaged (s : DStore GBody) (skip : Nat) : List (Entry GBody) × Bool :=
  let docs := ((findSel s selAll).drop skip).take gamesPerPage
  let newGames := docs.filter validGame
  (newGames, newGames.length == gamesPerPage)

/-- A live game document with a one-element `biblio.games` array, as
`addGame` creates them; used as concrete test data. -/
def demoGame (i : Nat) : Entry GBody :=
  ⟨mkGameId i, ⟨1, newTok 1⟩, false, ⟨some [⟨"T", "E", none, 2020⟩]⟩⟩

/-- A concrete games store: one design document (no `biblio.games`, id
starting with an underscore) followed by ten game documents. -/
def demoStore : DStore GBody :=
  ⟨"_design/idx", ⟨1, newTok 1⟩, false, ⟨none⟩⟩ :: (List.range 10).map demoGame

/-- C3 counterexample: on a store of one design document and ten game
documents, the first page request returns only 9 documents even though a
tenth game lies beyond the page, and the more-available flag is false even
though more documents are available: the flag is not `true` iff further
documents exist, and a non-final page may hold fewer than 10 documents. -/
theorem C3_counterexample :
    (fetchDataPaged demoStore 0).1.length = 9 ∧
    (fetchDataPaged demoStore 0).2 = false ∧
    (fetchDataPaged demoStore 10).1 = [demoGame 9] := by
  refine ⟨by decide, by decide, by decide⟩

/-- C3 amended: every page request returns at most `gamesPerPage` (10)
documents; the more-available flag is true exactly when the filtered page
holds exactly 10 documents (so it can be true on an exactly-full final page
and false on a non-final page that contains filtered-out documents); and a
request starting at or beyond the end of the matched documents returns the
empty sequence with the flag false. -/
theorem C3_page_size_and_flag (s : DStore GBody) (skip : Nat) :
    (fetchDataPaged s skip).1.length ≤ gamesPerPage ∧
    ((fetchDataPaged s skip).2 = true ↔
      (fetchDataPaged s skip).1.length = gamesPerPage) ∧
    ((findSel s selAll).length ≤ skip → fetchDataPaged s skip = ([], false)) := by
  refine ⟨?_, ?_, ?_⟩
  · calc ((fetchDataPaged s skip).1).length
        ≤ (((findSel s selAll).drop skip).take gamesPerPage).length :=
          List.length_filter_le _ _
      _ ≤ gamesPerPage := List.length_take_le _ _
  · have hflag : (fetchDataPaged s skip).2 =
        ((fetchDataPaged s skip).1.length == gamesPerPage) := rfl
    rw [hflag]
    simp
  · intro hle
    unfold fetchDataPaged
    rw [List.drop_eq_nil_of_le hle]
    rfl

/-- C9: every games listing surfaced to the presentation layer — the full
fetch and every paginated page — contains only documents whose id does not
start with an underscore and that possess a `biblio.games` field. -/
theorem C9_listing_shape (s : DStore GBody) (skip : Nat) (e : Entry GBody)
    (he : e ∈ fetchData s ∨ e ∈ (fetchDataPaged s skip).1) :
    startsUnderscore e.id = false ∧ e.body.biblioGames?.isSome = true := by
  have hvalid : validGame e = true := by
    cases he with
    | inl h => exact (List.mem_filter.mp h).2
    | inr h => exact (List.mem_filter.mp h).2
  obtain ⟨h1, h2⟩ : e.body.biblioGames?.isSome = true ∧
      (!startsUnderscore e.id) = true := by simpa [validGame] using hvalid
  exact ⟨by simpa using h2, h1⟩

/-- Lowercasing used by the case-insensitive comparison (the `i` flag of the
source's `RegExp`). -/
def lc (c : Char) : Char := c.toLower

/-- Modelled from the source's `new RegExp(searchTitle, 'i')`: match of the
pattern at the start of the text, where `.` matches any character and every
other character matches itself case-insensitively. The theorems below only
apply this to patterns built from literal characters and `.`, the fragment
on which it agrees with the JavaScript regular-expression engine. -/
def rxAt : List Char → List Char → Bool
  | [], _ => true
  | _ :: _, [] => false
  | p :: ps, t :: ts => (p == '.' || lc p == lc t) && rxAt ps ts

/-- Match of the pattern at some position of the text, as `RegExp.test`. -/
def rxTest (p : List Char) : List Char → Bool
  | [] => rxAt p []
  | c :: ts => rxAt p (c :: ts) || rxTest p ts

/-- Literal case-insensitive match of the pattern at the start of the text. -/
def ciAt : List Char → List Char → Bool
  | [], _ => true
  | _ :: _, [] => false
  | p :: ps, t :: ts => (lc p == lc t) && ciAt ps ts

/-- Case-insensitive substring occurrence: the pattern matches literally at
some position of the text. -/
def ciSub (p : List Char) : List Char → Bool
  | [] => ciAt p []
  | c :: ts => ciAt p (c :: ts) || ciSub p ts

/-- The JavaScript regular-expression metacharacters. -/
def rxMeta : List Char := ['.', '*', '+', '?', '(', ')', '[', ']',
  Char.ofNat 123, Char.ofNat 125, '|', '^', '$', '\\']

/-- A search string free of regular-expression metacharacters. -/
def noMeta (p : String) : Bool := p.data.all (fun c => !rxMeta.contains c)

/-- Selector of `searchGames`: `$regex` on `biblio.games.0.title` with the
`i` flag — the title of the first element of the games array matches the
pattern; documents without that field never match. -/
def selTitle (pat : String) (e : Entry GBody) : Bool :=
  match e.body.biblioGames? with
  | some (g :: _) => rxTest pat.data g.title.data
  | _ => false

/-- `searchGames` of the source (non-empty search text): `find` with the
`$regex` title selector; the result is surfaced as the games listing. -/
def searchGames (pat : String) (s : DStore GBody) : List (Entry GBody) :=
  findSel s (selTitle pat)

/-- The claim's reading of the search: the search string occurs
case-insensitively as a literal substring of the title of the document's
first game entry. -/
def titleHasSub (pat : String) (e : Entry GBody) : Bool :=
  match e.body.biblioGames? with
  | some (g :: _) => ciSub pat.data g.title.data
  | _ => false

/-- A live game document titled `Dark Souls`, as concrete test data. -/
def darkSouls : Entry GBody :=
  ⟨"game_1", ⟨1, newTok 1⟩, false, ⟨some [⟨"Dark Souls", "FromSoftware", none, 2011⟩]⟩⟩

/-- C5 counterexample: searching with the one-character string `.` returns
the document titled `Dark Souls` even though `.` does not occur as a
substring of that title: the search string is interpreted as a regular
expression, not as a literal substring, so the claimed equivalence fails for
search strings containing metacharacters. -/
theorem C5_counterexample :
    searchGames "." [darkSouls] = [darkSouls] ∧
    titleHasSub "." darkSouls = false := by
  refine ⟨by decide, by decide⟩

/-- Helper: on patterns without `.`, the regex prefix match is the literal
case-insensitive prefix match. -/
theorem rxAt_eq_ciAt (p : List Char) (hp : ∀ c ∈ p, (c == '.') = false) :
    ∀ t : List Char, rxAt p t = ciAt p t := by
  induction p with
  | nil => intro t; rfl
  | cons c ps ih =>
    intro t
    cases t with
    | nil => rfl
    | cons a ts =>
      have hc : (c == '.') = false := hp c (by simp)
      show ((c == '.' || lc c == lc a) && rxAt ps ts) = ((lc c == lc a) && ciAt ps ts)
      rw [hc, Bool.false_or, ih (fun x hx => hp x (by simp [hx])) ts]

/-- Helper: on patterns without `.`, the regex test is the literal
case-insensitive substring test. -/
theorem rxTest_eq_ciSub (p : List Char) (hp : ∀ c ∈ p, (c == '.') = false) :
    ∀ t : List Char, rxTest p t = ciSub p t := by
  intro t
  induction t with
  | nil => show rxAt p [] = ciAt p [] ; exact rxAt_eq_ciAt p hp []
  | cons a ts ih =>
    show (rxAt p (a :: ts) || rxTest p ts) = (ciAt p (a :: ts) || ciSub p ts)
    rw [rxAt_eq_ciAt p hp (a :: ts), ih]

/-- C5 amended: for search strings free of regular-expression
metacharacters, the title search returns a stored document exactly when the
search string occurs case-insensitively as a substring of the title of the
document's first game entry (and the document is live); in particular
searching `dark` matches a live document titled `Dark Souls`. -/
theorem C5_search_is_ci_substring (pat : String) (s : DStore GBody)
    (e : Entry GBody) (hp : noMeta pat = true) :
    e ∈ searchGames pat s ↔
      e ∈ s ∧ e.deleted = false ∧ titleHasSub pat e = true := by
  have hdot : ∀ c ∈ pat.data, (c == '.') = false := by
    intro c hc
    have hall := List.all_eq_true.mp hp c hc
    have hnc : c ∉ rxMeta := by simpa using hall
    exact beq_eq_false_iff_ne.mpr (fun h => hnc (by rw [h]; simp [rxMeta]))
  have hsel : selTitle pat e = titleHasSub pat e := by
    unfold selTitle titleHasSub
    cases hbg : e.body.biblioGames? with
    | none => rfl
    | some l =>
      cases l with
      | nil => rfl
      | cons g gs => exact rxTest_eq_ciSub pat.data hdot g.title.data
  unfold searchGames findSel
  rw [List.mem_filter]
  constructor
  · rintro ⟨hmem, hcond⟩
    obtain ⟨hd, hs⟩ : e.deleted = false ∧ selTitle pat e = true := by
      simpa using hcond
    exact ⟨hmem, hd, by rw [← hsel]; exact hs⟩
  · rintro ⟨hmem, hd, ht⟩
    refine ⟨hmem, ?_⟩
    rw [hd]
    simpa [hsel] using ht

/-- Whitespace as JavaScript's `String.prototype.trim` strips it, restricted
to the usual ASCII whitespace characters. -/
def isWS (c : Char) : Bool :=
  c == ' ' || c == '\t' || c == '\n' || c == '\r'

/-- The source's `.trim()`: strip whitespace from both ends. -/
def jsTrim (s : String) : String :=
  ⟨((s.data.dropWhile isWS).reverse.dropWhile isWS).reverse⟩

/-- UI state of the comments feature: the pending per-game comment text, the
per-game comment lists shown to the user, and the comments store. -/
structure CommentUI where
  newCommentText : String → String
  commentsByGame : String → List (Entry CBody)
  store : DStore CBody

/-- `addComment` of the source: trim the pending text; when nothing is left
return at once; otherwise `put` the new comment document, prepend it to the
game's shown list and clear the pending text (a failed `put` aborts the
function before any state is touched). -/
def addComment (ui : CommentUI) (gid : String) (now : Nat) : CommentUI :=
  let text := jsTrim (ui.newCommentText gid)
  if text = "" then ui
  else
    match put ui.store ⟨mkCommentId now, none, .comment gid text none now⟩ with
    | (s', .ok r) =>
      { newCommentText := fun g => if g = gid then "" else ui.newCommentText g
        commentsByGame := fun g =>
          if g = gid then
            ⟨mkCommentId now, r, false, .comment gid text none now⟩ ::
              ui.commentsByGame g
          else ui.commentsByGame g
        store := s' }
    | (_, .error _) => ui

/-- C10: when the pending comment text is empty or consists only of
whitespace, `addComment` is a no-op: the whole state — the comments store
and the per-game comment state visible to the UI — is returned unchanged. -/
theorem C10_blank_comment_no_op (ui : CommentUI) (gid : String) (now : Nat)
    (h : jsTrim (ui.newCommentText gid) = "") :
    addComment ui gid now = ui := by
  unfold addComment
  rw [h]
  simp

/-- A concrete comments store: one comment and one like of `game_1`, plus a
like of another game. -/
def demoCS : DStore CBody :=
  [⟨"comment_1", ⟨1, newTok 1⟩, false, .comment "game_1" "nice" none 1⟩,
   ⟨"like_2", ⟨1, newTok 1⟩, false, .like "game_1" 2⟩,
   ⟨"like_3", ⟨1, newTok 1⟩, false, .like "game_9" 3⟩]

/-- A concrete comment UI state whose pending texts are all whitespace. -/
def demoUI : CommentUI := ⟨fun _ => "   ", fun _ => [], []⟩

/-- Witness for C1 at a concrete store: a `put` of `game_1` naming stale
revision 1 while the store is at revision 2 fails with a conflict and
returns the store unchanged. -/
theorem C1_witness :
    put [⟨"game_1", ⟨2, newTok 2⟩, false, (⟨none⟩ : GBody)⟩]
        ⟨"game_1", some ⟨1, newTok 1⟩, ⟨none⟩⟩ =
      ([⟨"game_1", ⟨2, newTok 2⟩, false, (⟨none⟩ : GBody)⟩], .error .conflict) :=
  C1_stale_put_conflicts [⟨"game_1", ⟨2, newTok 2⟩, false, (⟨none⟩ : GBody)⟩]
    ⟨"game_1", some ⟨1, newTok 1⟩, ⟨none⟩⟩
    ⟨"game_1", ⟨2, newTok 2⟩, false, ⟨none⟩⟩ ⟨1, newTok 1⟩
    (by decide) rfl rfl (by decide)

/-- Witness for C4 at concrete inputs: from the empty comments store, two
likes of `G1` count 2 and removing the first leaves count 1. -/
theorem C4_witness :
    likeCount [] "G1" = List.countP (fun e => !e.deleted && selLike "G1" e) [] ∧
    likeCount (toggleLike (toggleLike [] 1 "G1").1 2 "G1").1 "G1" = 2 ∧
    likeCount (remove (toggleLike (toggleLike [] 1 "G1").1 2 "G1").1
        (mkLikeId 1) ⟨1, newTok 1⟩).1 "G1" = 1 :=
  C4_like_count_matches_store [] "G1" 1 2 (by decide)

/-- Witness for C5 at concrete inputs: searching `dark` finds the live
document titled `Dark Souls`. -/
theorem C5_witness : darkSouls ∈ searchGames "dark" [darkSouls] :=
  (C5_search_is_ci_substring "dark" [darkSouls] darkSouls (by decide)).mpr
    ⟨by decide, rfl, by decide⟩

/-- Witness for C6 at concrete stores: after deleting `game_1`, its
tombstoned game entry and its tombstoned like entry are indeed marked
deleted in the resulting stores. -/
theorem C6_witness :
    (⟨"game_1", ⟨2, newTok 2⟩, true,
        (⟨some [⟨"T", "E", none, 2020⟩]⟩ : GBody)⟩ : Entry GBody).deleted = true ∧
    (⟨"like_2", ⟨2, newTok 2⟩, true, CBody.like "game_1" 2⟩ : Entry CBody).deleted = true := by
  have h := C6_delete_cascades [demoGame 1] demoCS "game_1"
    [⟨"game_1", ⟨2, newTok 2⟩, true, ⟨some [⟨"T", "E", none, 2020⟩]⟩⟩]
    [⟨"comment_1", ⟨2, newTok 2⟩, true, .comment "game_1" "nice" none 1⟩,
     ⟨"like_2", ⟨2, newTok 2⟩, true, .like "game_1" 2⟩,
     ⟨"like_3", ⟨1, newTok 1⟩, false, .like "game_9" 3⟩]
    (by decide) (by decide)
  exact ⟨h.1 _ (by decide) rfl, h.2 _ (by decide) (by decide)⟩

/-- Witness for C8 at concrete inputs: a second `addGame` in the same
millisecond is rejected as a conflict, leaving the store unchanged. -/
theorem C8_witness :
    addGame (addGame [] 5 "A" "B" none 2020).1 5 "C" "D" none 2021 =
      ((addGame [] 5 "A" "B" none 2020).1, .error .conflict) :=
  (C8_same_millisecond_put_rejected [] [] 5 "A" "B" "C" "D" none none 2020 2021
    "g" "t" "g" "t" "g" "g").1 ⟨1, newTok 1⟩ rfl

/-- Witness for C9 at concrete inputs: a listed demo game neither starts
with an underscore nor lacks its `biblio.games` field. -/
theorem C9_witness :
    startsUnderscore (demoGame 0).id = false ∧
    (demoGame 0).body.biblioGames?.isSome = true :=
  C9_listing_shape demoStore 0 (demoGame 0) (Or.inl (by decide))

/-- Witness for C10 at concrete inputs: with whitespace-only pending text,
`addComment` returns the state unchanged. -/
theorem C10_witness : addComment demoUI "G1" 7 = demoUI :=
  C10_blank_comment_no_op demoUI "G1" 7 (by decide)

end InfraDon
